import Mathlib

/-!
Shallow embedding of the point-sampling core (`lib/segment/src/segment/sampling.rs`)
and the REST query-validation layer (`lib/api/src/rest/validate.rs`) of a
segment-based vector storage engine, together with proofs of the specified
properties.

Randomness is modelled by explicit draw streams (`Nat → Nat`, one value per
`gen_range` call), and the cooperatively polled cancellation flag by a poll
sequence (`Nat → Bool`, the value observed at the n-th poll).
-/

namespace Qdrant

/-- Client-visible point identifier (`PointIdType`): numeric or UUID-like. -/
inductive PointIdType where
  | numId (n : Nat)
  | uuid (s : String)
deriving DecidableEq, Repr

/-- Opaque handle for a payload filter; its semantics live in the segment's
payload-index capabilities. -/
structure Filter where
  tag : Nat
deriving DecidableEq, Repr

/-- Cardinality estimation returned by `PayloadIndex::estimate_cardinality`:
(min, expected, max) bounds on the number of matching points. -/
structure CardinalityEstimation where
  min : Nat
  exp : Nat
  max : Nat
deriving DecidableEq, Repr

/-- The capability surface a `Segment` borrows for a sampling read:
`id_tracker.external_id`, `id_tracker.iter_random` (one drawn random
permutation of the live `(external, internal)` pairs),
`payload_index.estimate_cardinality`, `payload_index.iter_filtered_points`
and the compiled `payload_index.filter_context(..).check`. -/
structure Segment where
  externalId : Nat → Option PointIdType
  iterRandom : List (PointIdType × Nat)
  estimateCardinality : Filter → CardinalityEstimation
  iterFilteredPoints : Filter → CardinalityEstimation → List Nat
  filterContextCheck : Filter → Nat → Bool

/-- Modelled from the spec: `common::iterator_ext::IteratorExt::check_stop`
(repository code outside the provided sources). The cancellation flag is
polled once per candidate considered; once a poll observes `true` the
enumeration stops and nothing further is emitted. `n` counts the polls made
so far. -/
def checkStopFrom (stop : Nat → Bool) : Nat → List α → List α
  | _, [] => []
  | n, x :: xs => if stop n then [] else x :: checkStopFrom stop (n + 1) xs

/-- Truncate a lazily consumed sequence at the first poll of the cancellation
flag that observes `true` (polls start at index 0). -/
def checkStop (stop : Nat → Bool) (xs : List α) : List α :=
  checkStopFrom stop 0 xs

/-- Modelled from the spec: the replacement loop of the one-pass
"choose k of n without replacement" reservoir sampler
(`rand::seq::IteratorRandom::choose_multiple`). The buffer `buf` already
holds the first candidates; each further element replaces a uniformly chosen
slot `draw step % (step + 1 + k)` when that index lands inside the buffer.
-/
def chooseMultipleGo (draw : Nat → Nat) (k : Nat) : Nat → List α → List α → List α
  | _, buf, [] => buf
  | step, buf, x :: xs =>
    let j := draw step % (step + 1 + k)
    chooseMultipleGo draw k (step + 1) (if j < buf.length then buf.set j x else buf) xs

/-- Modelled from the spec: one-pass reservoir sampling of up to `k` elements
without knowing the sequence length in advance: fill the buffer with the
first `k` elements, then probabilistically replace buffer slots. -/
def chooseMultiple (draw : Nat → Nat) (k : Nat) (xs : List α) : List α :=
  chooseMultipleGo draw k 0 (xs.take k) (xs.drop k)

/-- Modelled from the spec: a uniform random permutation of a list
(`rand::seq::SliceRandom::shuffle`), expressed in select-and-remove form: at
each step a uniformly random remaining element is moved to the front. -/
def shuffleGo (draw : Nat → Nat) (step : Nat) (l : List α) : List α :=
  match l with
  | [] => []
  | x :: xs =>
    have hj : draw step % (x :: xs).length < (x :: xs).length :=
      Nat.mod_lt _ (Nat.succ_pos _)
    (x :: xs).get ⟨draw step % (x :: xs).length, hj⟩ ::
      shuffleGo draw (step + 1) ((x :: xs).eraseIdx (draw step % (x :: xs).length))
termination_by l.length
decreasing_by
  have := List.length_eraseIdx_add_one hj
  simp at this ⊢
  omega

/-- Uniform random shuffle with draws starting at index 0. -/
def shuffle (draw : Nat → Nat) (l : List α) : List α :=
  shuffleGo draw 0 l

/-- Embedding of `Segment::filtered_read_by_index_shuffled`: estimate the
cardinality, enumerate the index's filtered internal ids with per-candidate
cancellation checks, translate to external ids dropping unresolved ones,
reservoir-choose up to `limit`, and shuffle the chosen items. `drawChoose`
and `drawShuffle` are the random draws consumed by the two sampling steps. -/
def Segment.filtered_read_by_index_shuffled (s : Segment) (limit : Nat) (condition : Filter)
    (stop : Nat → Bool) (drawChoose drawShuffle : Nat → Nat) : List PointIdType :=
  let cardinalityEstimation := s.estimateCardinality condition
  let idsIterator :=
    (checkStop stop (s.iterFilteredPoints condition cardinalityEstimation)).filterMap
      s.externalId
  shuffle drawShuffle (chooseMultiple drawChoose limit idsIterator)

/-- Embedding of `Segment::filtered_read_by_random_stream`: walk the id
tracker's random permutation with per-candidate cancellation checks, keep the
pairs whose internal id passes the compiled filter context, project to the
external id and take at most `limit`. -/
def Segment.filtered_read_by_random_stream (s : Segment) (limit : Nat) (condition : Filter)
    (stop : Nat → Bool) : List PointIdType :=
  ((((checkStop stop s.iterRandom).filter
      (fun p => s.filterContextCheck condition p.2)).map Prod.fst).take limit)

/-- Embedding of `Segment::read_by_random_id`: take the external ids of the
first `limit` entries of the id tracker's random permutation. -/
def Segment.read_by_random_id (s : Segment) (limit : Nat) : List PointIdType :=
  ((s.iterRandom.map Prod.fst).take limit)

/-! Reference algorithms written from the specification text, to be compared
with the embeddings above. -/

/-- Modelled from the spec: one step of the reservoir sampler of design note
§9. The state is the buffer together with the number of items seen so far;
an item seen when the buffer is full replaces a random slot with probability
`buffer_size / items_seen_so_far` (counting the item at hand). -/
def specReservoirStep (draw : Nat → Nat) (k : Nat) (st : List α × Nat) (x : α) :
    List α × Nat :=
  if st.1.length < k then (st.1 ++ [x], st.2 + 1)
  else
    (if draw (st.2 - k) % (st.2 + 1) < k then st.1.set (draw (st.2 - k) % (st.2 + 1)) x
     else st.1,
     st.2 + 1)

/-- Modelled from the spec: the reservoir sampler of design note §9, written
as a left fold over the candidate sequence starting from an empty buffer. -/
def specReservoir (draw : Nat → Nat) (k : Nat) (xs : List α) : List α :=
  (xs.foldl (specReservoirStep draw k) ([], 0)).1

/-- Modelled from the spec: the reference algorithm of §4.1 — (1) obtain the
cardinality estimate (informational), (2) enumerate the index's filtered
internal-id sequence, checking cancellation once per candidate considered,
(3) translate each internal id to an external id, silently dropping any that
no longer resolves, (4) choose up to `limit` survivors by the one-pass
reservoir, (5) permute the chosen items uniformly at random. -/
def Segment.specSampleIndexShuffled (s : Segment) (limit : Nat) (condition : Filter)
    (stop : Nat → Bool) (drawChoose drawShuffle : Nat → Nat) : List PointIdType :=
  let estimate := s.estimateCardinality condition
  let candidates := checkStop stop (s.iterFilteredPoints condition estimate)
  let survivors := (candidates.map s.externalId).reduceOption
  let chosen := specReservoir drawChoose limit survivors
  shuffle drawShuffle chosen

/-- Modelled from the spec: the reference description of §4.2 as read by
claim C10 — the first up-to-`limit` elements of the cancellation-truncated
random permutation that satisfy the compiled filter context, in the same
relative order in which they occur in that permutation, projected to their
external ids; no final shuffle is applied. -/
def Segment.specSampleRandomStream (s : Segment) (limit : Nat) (condition : Filter)
    (stop : Nat → Bool) : List PointIdType :=
  (((checkStop stop s.iterRandom).filter
      (fun p => s.filterContextCheck condition p.2)).take limit).map Prod.fst

/-! Embedding of the REST validation layer (`lib/api/src/rest/validate.rs`).
The validated REST schema types live outside the provided sources; they are
modelled here with hash maps as association lists and floating-point scalars
kept abstract (they are never inspected by validation). -/

/-- One `validator::ValidationError`: a code plus named parameters (the
parameter values are kept as plain strings). -/
structure ValidationError where
  code : String
  params : List (String × String)
deriving DecidableEq, Repr

/-- A `validator::ValidationErrors` collection: field-keyed errors in
insertion order. -/
structure ValidationErrors where
  errors : List (String × ValidationError)
deriving DecidableEq, Repr

/-- `ValidationErrors::default()` / `ValidationErrors::new()`. -/
def ValidationErrors.empty : ValidationErrors := ⟨[]⟩

/-- `ValidationErrors::add`: record an error under a field key. -/
def ValidationErrors.add (e : ValidationErrors) (field : String) (err : ValidationError) :
    ValidationErrors :=
  ⟨e.errors ++ [(field, err)]⟩

/-- The exact error produced for every document-tagged variant: code
`not_supported_inference`, message parameter attached to field `text`. -/
def documentInferenceError : ValidationErrors :=
  ValidationErrors.empty.add "text"
    { code := "not_supported_inference"
      params := [("message", "Document inference is not implemented, please use vectors instead")] }

/-- Result type of `Validate::validate`. -/
abbrev VResult := Except ValidationErrors Unit

/-- Modelled from the spec: sequential validation of nested items with the
`?` operator / first-error short-circuit described in §7 (used for
`common::validation::validate_iter` and the explicit loops of
`RecommendInput::validate` and `ContextInput::validate`). -/
def validateFirst : List VResult → VResult
  | [] => .ok ()
  | .ok () :: rest => validateFirst rest
  | .error e :: _ => .error e

/-- A dense vector; validation never inspects the scalars, only shapes. -/
abbrev DenseVector := List Float

/-- A multi-dense vector: a list of rows. -/
abbrev MultiDenseVector := List DenseVector

/-- A sparse vector: parallel index and value lists. -/
structure SparseVector where
  indices : List Nat
  values : List Float

/-- A document-inference request payload; validation never inspects it. -/
structure Document where
  text : String

/-- Modelled from the spec: `common::validation::validate_multi_vector`
(repository code outside the provided sources); it checks the nested vector
shape — all rows must have the same length — and reports any problem under
its own code, distinct from the document-inference error. -/
def validate_multi_vector (m : MultiDenseVector) : VResult :=
  if m.all (fun row => row.length == (m.headD []).length) then .ok ()
  else .error (ValidationErrors.empty.add "data" { code := "invalid_multi_vector", params := [] })

/-- Modelled from the spec: `SparseVector::validate` (repository code outside
the provided sources); it checks well-formedness of the sparse pair of lists
and reports any problem under its own code, distinct from the
document-inference error. -/
def SparseVector.validate (v : SparseVector) : VResult :=
  if v.indices.length == v.values.length then .ok ()
  else .error (ValidationErrors.empty.add "values" { code := "invalid_sparse_vector", params := [] })

/-- REST `Vector`: dense, sparse, multi-dense, or a document request. -/
inductive Vector where
  | dense (v : DenseVector)
  | sparse (v : SparseVector)
  | multiDense (m : MultiDenseVector)
  | document (d : Document)

/-- REST `VectorStruct`: a single vector, a multi vector, a named map of
vectors, or a document request. -/
inductive VectorStruct where
  | single (v : DenseVector)
  | multiDense (m : MultiDenseVector)
  | named (m : List (String × Vector))
  | document (d : Document)

/-- REST `BatchVectorStruct`: batched variants of `VectorStruct`. -/
inductive BatchVectorStruct where
  | single (vs : List DenseVector)
  | multiDense (ms : List MultiDenseVector)
  | named (m : List (String × List Vector))
  | document (ds : List Document)

/-- REST `VectorInput`: query-side vector reference — an existing point id,
an inline vector, or a document request. -/
inductive VectorInput where
  | id (pid : PointIdType)
  | denseVector (v : DenseVector)
  | sparseVector (v : SparseVector)
  | multiDenseVector (m : MultiDenseVector)
  | document (d : Document)

/-- Embedding of `impl Validate for Vector`. -/
def Vector.validate : Vector → VResult
  | .dense _ => .ok ()
  | .sparse v => v.validate
  | .multiDense m => validate_multi_vector m
  | .document _ => .error documentInferenceError

/-- Embedding of `impl Validate for VectorStruct`; the `Named` arm validates
the map's values through `validate_iter`. -/
def VectorStruct.validate : VectorStruct → VResult
  | .single _ => .ok ()
  | .multiDense m => validate_multi_vector m
  | .named m => validateFirst ((m.map Prod.snd).map Vector.validate)
  | .document _ => .error documentInferenceError

/-- Embedding of `impl Validate for BatchVectorStruct`; the `MultiDense` arm
validates each multi vector with the `?` operator, the `Named` arm flattens
the map's value lists through `validate_iter`. -/
def BatchVectorStruct.validate : BatchVectorStruct → VResult
  | .single _ => .ok ()
  | .multiDense ms => validateFirst (ms.map validate_multi_vector)
  | .named m => validateFirst (((m.map Prod.snd).flatten).map Vector.validate)
  | .document _ => .error documentInferenceError

/-- Embedding of `impl Validate for VectorInput`. -/
def VectorInput.validate : VectorInput → VResult
  | .id _ => .ok ()
  | .denseVector _ => .ok ()
  | .sparseVector v => v.validate
  | .multiDenseVector m => validate_multi_vector m
  | .document _ => .error documentInferenceError

/-- REST `RecommendInput`: optional positive and negative example lists. -/
structure RecommendInput where
  positive : Option (List VectorInput)
  negative : Option (List VectorInput)

/-- Modelled from the spec: `RecommendInput::iter` (schema code outside the
provided sources) — the positive examples followed by the negative ones. -/
def RecommendInput.iter (r : RecommendInput) : List VectorInput :=
  r.positive.getD [] ++ r.negative.getD []

/-- The error raised when a recommend query has no positive and no negative
example, keyed to the field `positives, negatives`. -/
def recommendEmptyError : ValidationErrors :=
  ValidationErrors.empty.add "positives, negatives"
    { code := "At least one positive or negative vector/id must be provided", params := [] }

/-- Embedding of `impl Validate for RecommendInput`: fail when both example
lists are absent or empty, otherwise validate the nested items in order with
the short-circuiting `?` operator. -/
def RecommendInput.validate (r : RecommendInput) : VResult :=
  let noPositives := (r.positive.map List.isEmpty).getD true
  let noNegatives := (r.negative.map List.isEmpty).getD true
  if noPositives && noNegatives then .error recommendEmptyError
  else validateFirst (r.iter.map VectorInput.validate)

/-- Modelled from the spec: REST `ContextPair` (schema code outside the
provided sources) — a positive and a negative example; its `iter` yields the
positive then the negative. -/
structure ContextPair where
  positive : VectorInput
  negative : VectorInput

/-- `ContextPair::iter`: the positive example followed by the negative one. -/
def ContextPair.iter (p : ContextPair) : List VectorInput :=
  [p.positive, p.negative]

/-- REST `ContextInput`: an optional list of context pairs. -/
structure ContextInput where
  pairs : Option (List ContextPair)

/-- Embedding of `impl Validate for ContextInput`: flatten the pairs into
their items and validate them in order with the short-circuiting `?`
operator. -/
def ContextInput.validate (c : ContextInput) : VResult :=
  validateFirst (((c.pairs.getD []).flatMap ContextPair.iter).map VectorInput.validate)

/-! Auxiliary lemmas about the sampling building blocks. -/

theorem checkStopFrom_sublist (stop : Nat → Bool) :
    ∀ (n : Nat) (l : List α), List.Sublist (checkStopFrom stop n l) l := by
  intro n l
  induction l generalizing n with
  | nil => simp [checkStopFrom]
  | cons x xs ih =>
    rw [checkStopFrom]
    split
    · exact List.nil_sublist _
    · exact (ih (n + 1)).cons₂ x

theorem checkStop_sublist (stop : Nat → Bool) (l : List α) :
    List.Sublist (checkStop stop l) l :=
  checkStopFrom_sublist stop 0 l

theorem checkStop_eq_nil_of_stopped (stop : Nat → Bool) (h : stop 0 = true) (l : List α) :
    checkStop stop l = [] := by
  cases l with
  | nil => rfl
  | cons x xs => simp [checkStop, checkStopFrom, h]

theorem length_chooseMultipleGo (draw : Nat → Nat) (k : Nat) :
    ∀ (rest : List α) (step : Nat) (buf : List α),
      (chooseMultipleGo draw k step buf rest).length = buf.length := by
  intro rest
  induction rest with
  | nil => intro step buf; rfl
  | cons x xs ih =>
    intro step buf
    rw [chooseMultipleGo, ih]
    split <;> simp

theorem length_chooseMultiple (draw : Nat → Nat) (k : Nat) (xs : List α) :
    (chooseMultiple draw k xs).length = min k xs.length := by
  rw [chooseMultiple, length_chooseMultipleGo, List.length_take]

theorem mem_chooseMultipleGo (draw : Nat → Nat) (k : Nat) :
    ∀ (rest : List α) (step : Nat) (buf : List α) (a : α),
      a ∈ chooseMultipleGo draw k step buf rest → a ∈ buf ∨ a ∈ rest := by
  intro rest
  induction rest with
  | nil => intro step buf a h; exact Or.inl h
  | cons x xs ih =>
    intro step buf a h
    rw [chooseMultipleGo] at h
    rcases ih _ _ _ h with hbuf | hxs
    · by_cases hj : draw step % (step + 1 + k) < buf.length
      · simp only [hj, if_pos] at hbuf
        rcases List.mem_or_eq_of_mem_set hbuf with h1 | h2
        · exact Or.inl h1
        · exact Or.inr (h2 ▸ List.mem_cons_self x xs)
      · simp only [hj, if_neg, not_false_iff] at hbuf
        exact Or.inl hbuf
    · exact Or.inr (List.mem_cons_of_mem x hxs)

theorem mem_chooseMultiple (draw : Nat → Nat) (k : Nat) (xs : List α) (a : α)
    (h : a ∈ chooseMultiple draw k xs) : a ∈ xs := by
  rcases mem_chooseMultipleGo draw k _ _ _ _ h with h1 | h2
  · exact List.mem_of_mem_take h1
  · exact List.mem_of_mem_drop h2

theorem nodup_chooseMultipleGo (draw : Nat → Nat) (k : Nat) :
    ∀ (rest : List α) (step : Nat) (buf : List α),
      buf.Nodup → rest.Nodup → (∀ b ∈ buf, b ∉ rest) →
      (chooseMultipleGo draw k step buf rest).Nodup := by
  intro rest
  induction rest with
  | nil => intro _ buf hbuf _ _; exact hbuf
  | cons x xs ih =>
    intro step buf hbuf hrest hdisj
    rw [chooseMultipleGo]
    have hxo : x ∉ buf := fun hx => hdisj x hx (List.mem_cons_self x xs)
    have hxs : x ∉ xs := (List.nodup_cons.mp hrest).1
    have hxsn : xs.Nodup := (List.nodup_cons.mp hrest).2
    apply ih
    · split
      · exact hbuf.set hxo
      · exact hbuf
    · exact hxsn
    · intro b hb
      have hb' : b ∈ buf ∨ b = x := by
        split at hb
        · exact List.mem_or_eq_of_mem_set hb
        · exact Or.inl hb
      rcases hb' with h1 | h2
      · exact fun hmem => hdisj b h1 (List.mem_cons_of_mem x hmem)
      · exact h2 ▸ hxs

theorem nodup_chooseMultiple (draw : Nat → Nat) (k : Nat) (xs : List α)
    (h : xs.Nodup) : (chooseMultiple draw k xs).Nodup := by
  have hsplit : (xs.take k ++ xs.drop k).Nodup := by
    rw [List.take_append_drop]; exact h
  rw [List.nodup_append] at hsplit
  exact nodup_chooseMultipleGo draw k _ _ _ hsplit.1 hsplit.2.1
    (fun b hb hb' => hsplit.2.2 hb hb')

theorem getCons_eraseIdx_perm :
    ∀ (l : List α) (j : Nat) (h : j < l.length),
      List.Perm (l.get ⟨j, h⟩ :: l.eraseIdx j) l
  | x :: _, 0, _ => by simp
  | x :: xs, j + 1, h => by
    have hx : j < xs.length := by simpa using h
    have ih := getCons_eraseIdx_perm xs j hx
    exact (List.Perm.swap x (xs.get ⟨j, hx⟩) (xs.eraseIdx j)).trans (ih.cons x)

theorem shuffleGo_perm (draw : Nat → Nat) (step : Nat) (l : List α) :
    List.Perm (shuffleGo draw step l) l := by
  match l with
  | [] => rw [shuffleGo]
  | x :: xs =>
    rw [shuffleGo]
    have hj : draw step % (x :: xs).length < (x :: xs).length :=
      Nat.mod_lt _ (Nat.succ_pos _)
    have ih := shuffleGo_perm draw (step + 1)
      ((x :: xs).eraseIdx (draw step % (x :: xs).length))
    exact (ih.cons _).trans (getCons_eraseIdx_perm _ _ hj)
termination_by l.length
decreasing_by
  have := List.length_eraseIdx_add_one hj
  simp at this ⊢
  omega

theorem shuffle_perm (draw : Nat → Nat) (l : List α) : List.Perm (shuffle draw l) l :=
  shuffleGo_perm draw 0 l

theorem specReservoir_foldl_full (draw : Nat → Nat) (k : Nat) :
    ∀ (xs buf : List α) (n : Nat), buf.length = k →
      (xs.foldl (specReservoirStep draw k) (buf, k + n)).1
        = chooseMultipleGo draw k n buf xs := by
  intro xs
  induction xs with
  | nil => intro buf n _; rfl
  | cons x xs ih =>
    intro buf n hbuf
    rw [List.foldl_cons]
    simp only [chooseMultipleGo]
    have hnotlt : ¬ (buf.length < k) := by omega
    simp only [specReservoirStep, hnotlt, if_false]
    have hj : draw (k + n - k) % (k + n + 1) = draw n % (n + 1 + k) := by
      have h1 : k + n - k = n := by omega
      have h2 : k + n + 1 = n + 1 + k := by omega
      rw [h1, h2]
    rw [hj, hbuf]
    have hc : k + n + 1 = k + (n + 1) := by omega
    rw [hc]
    apply ih
    split <;> simp [hbuf]

theorem specReservoir_foldl_fill (draw : Nat → Nat) (k : Nat) :
    ∀ (xs buf : List α), buf.length ≤ k →
      (xs.foldl (specReservoirStep draw k) (buf, buf.length)).1
        = chooseMultipleGo draw k 0 (buf ++ xs.take (k - buf.length))
            (xs.drop (k - buf.length)) := by
  intro xs
  induction xs with
  | nil =>
    intro buf _
    simp [chooseMultipleGo]
  | cons x xs ih =>
    intro buf hle
    rcases Nat.lt_or_ge buf.length k with hlt | hge
    · rw [List.foldl_cons]
      simp only [specReservoirStep, hlt, if_true]
      have hlen : (buf ++ [x]).length = buf.length + 1 := by simp
      have := ih (buf ++ [x]) (by simp; omega)
      rw [hlen] at this
      rw [this]
      have hm : k - buf.length = (k - (buf.length + 1)) + 1 := by omega
      rw [hm, List.take_succ_cons, List.drop_succ_cons]
      congr 1
      simp
    · have hbk : buf.length = k := by omega
      have h0 : k - buf.length = 0 := by omega
      rw [h0]
      simp only [List.take_zero, List.drop_zero, List.append_nil]
      have := specReservoir_foldl_full draw k (x :: xs) buf 0 hbk
      rw [hbk]
      simpa using this

theorem specReservoir_eq_chooseMultiple (draw : Nat → Nat) (k : Nat) (xs : List α) :
    specReservoir draw k xs = chooseMultiple draw k xs := by
  have := specReservoir_foldl_fill draw k xs [] (Nat.zero_le k)
  simpa [specReservoir, chooseMultiple] using this

/-! Auxiliary predicates and lemmas about the validation layer. -/

/-- Whether a validation result carries an error entry with the
document-inference code. -/
def hasDocInferenceError : VResult → Bool
  | .ok _ => false
  | .error e => e.errors.any (fun p => p.2.code == "not_supported_inference")

/-- Whether a validation result carries an error entry under a field key. -/
def hasFieldKey (r : VResult) (f : String) : Bool :=
  match r with
  | .ok _ => false
  | .error e => e.errors.any (fun p => p.1 == f)

/-- Document-taggedness of a REST `Vector`. -/
def Vector.isDocument : Vector → Bool
  | .document _ => true
  | _ => false

/-- Document-taggedness of a REST `VectorStruct`. -/
def VectorStruct.isDocumentVariant : VectorStruct → Bool
  | .document _ => true
  | _ => false

/-- Document-taggedness of a REST `BatchVectorStruct`. -/
def BatchVectorStruct.isDocumentVariant : BatchVectorStruct → Bool
  | .document _ => true
  | _ => false

/-- Document-taggedness of a REST `VectorInput`. -/
def VectorInput.isDocumentVariant : VectorInput → Bool
  | .document _ => true
  | _ => false

/-- Whether none of the vectors nested inside a `VectorStruct` is a
document request. -/
def VectorStruct.nestedDocumentFree : VectorStruct → Bool
  | .named m => (m.map Prod.snd).all (fun v => !v.isDocument)
  | _ => true

/-- Whether none of the vectors nested inside a `BatchVectorStruct` is a
document request. -/
def BatchVectorStruct.nestedDocumentFree : BatchVectorStruct → Bool
  | .named m => ((m.map Prod.snd).flatten).all (fun v => !v.isDocument)
  | _ => true

theorem validateFirst_preserves (p : VResult → Bool) (hok : p (.ok ()) = false) :
    ∀ rs : List VResult, (∀ r ∈ rs, p r = false) → p (validateFirst rs) = false := by
  intro rs
  induction rs with
  | nil => intro _; exact hok
  | cons r rest ih =>
    intro h
    match r with
    | .ok () => exact ih (fun x hx => h x (List.mem_cons_of_mem _ hx))
    | .error e => exact h _ (List.mem_cons_self _ _)

theorem validateFirst_ok_append (e : ValidationErrors) :
    ∀ (rs1 rs2 : List VResult), (∀ r ∈ rs1, r = .ok ()) →
      validateFirst (rs1 ++ .error e :: rs2) = .error e := by
  intro rs1
  induction rs1 with
  | nil => intro rs2 _; rfl
  | cons r rest ih =>
    intro rs2 h
    have hr : r = .ok () := h r (List.mem_cons_self _ _)
    subst hr
    rw [List.cons_append, validateFirst]
    exact ih rs2 (fun x hx => h x (List.mem_cons_of_mem _ hx))

theorem multiVector_no_docError (m : MultiDenseVector) :
    hasDocInferenceError (validate_multi_vector m) = false := by
  rw [validate_multi_vector]
  split <;> rfl

theorem sparseVector_no_docError (v : SparseVector) :
    hasDocInferenceError v.validate = false := by
  rw [SparseVector.validate]
  split <;> rfl

theorem vector_no_docError (v : Vector) (h : v.isDocument = false) :
    hasDocInferenceError v.validate = false := by
  match v with
  | .dense _ => rfl
  | .sparse s => exact sparseVector_no_docError s
  | .multiDense m => exact multiVector_no_docError m
  | .document _ => simp [Vector.isDocument] at h

theorem multiVector_no_fieldKey (m : MultiDenseVector) (f : String) (hf : f ≠ "data") :
    hasFieldKey (validate_multi_vector m) f = false := by
  rw [validate_multi_vector]
  split
  · rfl
  · simp [hasFieldKey, ValidationErrors.add, ValidationErrors.empty]
    exact fun h => hf h.symm

theorem sparseVector_no_fieldKey (v : SparseVector) (f : String) (hf : f ≠ "values") :
    hasFieldKey v.validate f = false := by
  rw [SparseVector.validate]
  split
  · rfl
  · simp [hasFieldKey, ValidationErrors.add, ValidationErrors.empty]
    exact fun h => hf h.symm

theorem shuffle_nil (draw : Nat → Nat) : shuffle draw ([] : List α) = [] := by
  rw [shuffle, shuffleGo]

theorem chooseMultiple_nil (draw : Nat → Nat) (k : Nat) :
    chooseMultiple draw k ([] : List α) = [] := by
  simp [chooseMultiple, chooseMultipleGo]

theorem vectors_validateFirst_no_docError (l : List Vector)
    (h : ∀ v ∈ l, v.isDocument = false) :
    hasDocInferenceError (validateFirst (l.map Vector.validate)) = false :=
  validateFirst_preserves _ rfl _ (fun r hr => by
    rcases List.mem_map.mp hr with ⟨v, hv, hve⟩
    exact hve ▸ vector_no_docError v (h v hv))

theorem vectorInput_no_recommend_key (v : VectorInput) :
    hasFieldKey v.validate "positives, negatives" = false := by
  match v with
  | .id _ => rfl
  | .denseVector _ => rfl
  | .sparseVector s =>
    exact sparseVector_no_fieldKey s _ (by decide)
  | .multiDenseVector m =>
    exact multiVector_no_fieldKey m _ (by decide)
  | .document _ =>
    simp [VectorInput.validate, hasFieldKey, documentInferenceError,
      ValidationErrors.add, ValidationErrors.empty]

/-! Concrete instances used to witness the claims. -/

/-- A small concrete segment instantiating the sampling claims: three live
points, an index enumeration matching the even internal ids. -/
def witnessSegment : Segment where
  externalId := fun i => some (.numId i)
  iterRandom := [(.numId 2, 2), (.numId 0, 0), (.numId 1, 1)]
  estimateCardinality := fun _ => ⟨2, 2, 2⟩
  iterFilteredPoints := fun _ _ => [0, 2]
  filterContextCheck := fun _ i => i % 2 == 0

/-- An empty segment instantiating the totality claim. -/
def emptySegment : Segment where
  externalId := fun _ => none
  iterRandom := []
  estimateCardinality := fun _ => ⟨0, 0, 0⟩
  iterFilteredPoints := fun _ _ => []
  filterContextCheck := fun _ _ => false

/-! The claims. -/

/-- C1: for every filter, limit and cancellation flag,
`filtered_read_by_index_shuffled` returns at most `limit` pairwise distinct
external ids, and every returned id resolves from an internal id whose point
satisfies the filter — given that the payload index enumerates each matching
point once, translation is injective (the id tracker's bijection), and every
enumerated internal id satisfies the filter. -/
theorem sampleIndexShuffled_bounded_distinct_satisfying
    (s : Segment) (limit : Nat) (condition : Filter) (stop : Nat → Bool)
    (drawChoose drawShuffle : Nat → Nat) (sat : Nat → Prop)
    (hnodup : (s.iterFilteredPoints condition (s.estimateCardinality condition)).Nodup)
    (hinj : ∀ a b e, s.externalId a = some e → s.externalId b = some e → a = b)
    (hsat : ∀ i ∈ s.iterFilteredPoints condition (s.estimateCardinality condition), sat i) :
    (s.filtered_read_by_index_shuffled limit condition stop drawChoose drawShuffle).length
        ≤ limit ∧
    (s.filtered_read_by_index_shuffled limit condition stop drawChoose drawShuffle).Nodup ∧
    ∀ e ∈ s.filtered_read_by_index_shuffled limit condition stop drawChoose drawShuffle,
      ∃ i, s.externalId i = some e ∧ sat i := by
  simp only [Segment.filtered_read_by_index_shuffled]
  have hcs := checkStop_sublist stop
    (s.iterFilteredPoints condition (s.estimateCardinality condition))
  have hids : ((checkStop stop
      (s.iterFilteredPoints condition (s.estimateCardinality condition))).filterMap
        s.externalId).Nodup :=
    List.Nodup.filterMap
      (fun a a' b hb hb' => hinj a a' b (Option.mem_def.mp hb) (Option.mem_def.mp hb'))
      (hnodup.sublist hcs)
  have hperm := shuffle_perm drawShuffle
    (chooseMultiple drawChoose limit
      ((checkStop stop
        (s.iterFilteredPoints condition (s.estimateCardinality condition))).filterMap
          s.externalId))
  refine ⟨?_, ?_, ?_⟩
  · rw [hperm.length_eq, length_chooseMultiple]
    exact Nat.min_le_left _ _
  · exact hperm.nodup_iff.mpr (nodup_chooseMultiple _ _ _ hids)
  · intro e he
    have h2 := mem_chooseMultiple _ _ _ _ (hperm.mem_iff.mp he)
    rcases List.mem_filterMap.mp h2 with ⟨i, hi, hie⟩
    exact ⟨i, hie, hsat i (hcs.subset hi)⟩

/-- Witness for C1 at a concrete segment, filter and draws. -/
theorem sampleIndexShuffled_bounded_distinct_satisfying_witness :
    (witnessSegment.filtered_read_by_index_shuffled 1 ⟨0⟩ (fun _ => false) (fun _ => 0)
        (fun _ => 0)).length ≤ 1 ∧
    (witnessSegment.filtered_read_by_index_shuffled 1 ⟨0⟩ (fun _ => false) (fun _ => 0)
        (fun _ => 0)).Nodup ∧
    ∀ e ∈ witnessSegment.filtered_read_by_index_shuffled 1 ⟨0⟩ (fun _ => false) (fun _ => 0)
        (fun _ => 0), ∃ i, witnessSegment.externalId i = some e ∧ i % 2 = 0 :=
  sampleIndexShuffled_bounded_distinct_satisfying witnessSegment 1 ⟨0⟩ (fun _ => false)
    (fun _ => 0) (fun _ => 0) (fun i => i % 2 = 0)
    (by decide)
    (fun a b e ha hb => by
      simp only [witnessSegment] at ha hb
      injection ha with ha2
      injection hb with hb2
      rw [← hb2] at ha2
      injection ha2)
    (by decide)

/-- C2: for every filter, limit and cancellation flag,
`filtered_read_by_random_stream` returns at most `limit` pairwise distinct
external ids, each belonging to a permutation entry whose internal id passes
the compiled filter context — given that the permutation's external ids are
pairwise distinct (the id tracker's bijection). -/
theorem sampleRandomStream_bounded_satisfying_distinct
    (s : Segment) (limit : Nat) (condition : Filter) (stop : Nat → Bool)
    (hnodup : (s.iterRandom.map Prod.fst).Nodup) :
    (s.filtered_read_by_random_stream limit condition stop).length ≤ limit ∧
    (s.filtered_read_by_random_stream limit condition stop).Nodup ∧
    ∀ e ∈ s.filtered_read_by_random_stream limit condition stop,
      ∃ i, (e, i) ∈ s.iterRandom ∧ s.filterContextCheck condition i = true := by
  simp only [Segment.filtered_read_by_random_stream]
  have hsub : List.Sublist
      (((checkStop stop s.iterRandom).filter
          (fun p => s.filterContextCheck condition p.2)).map Prod.fst)
      (s.iterRandom.map Prod.fst) :=
    ((List.filter_sublist _).trans (checkStop_sublist stop s.iterRandom)).map Prod.fst
  refine ⟨?_, ?_, ?_⟩
  · exact List.length_take_le _ _
  · exact (hnodup.sublist hsub).sublist (List.take_sublist _ _)
  · intro e he
    have h1 := List.mem_of_mem_take he
    rcases List.mem_map.mp h1 with ⟨p, hp, hpe⟩
    obtain ⟨a, b⟩ := p
    have hp2 := List.mem_filter.mp hp
    cases hpe
    exact ⟨b, (checkStop_sublist stop s.iterRandom).subset hp2.1, hp2.2⟩

/-- Witness for C2 at a concrete segment and filter. -/
theorem sampleRandomStream_bounded_satisfying_distinct_witness :
    (witnessSegment.filtered_read_by_random_stream 2 ⟨0⟩ (fun _ => false)).length ≤ 2 ∧
    (witnessSegment.filtered_read_by_random_stream 2 ⟨0⟩ (fun _ => false)).Nodup ∧
    ∀ e ∈ witnessSegment.filtered_read_by_random_stream 2 ⟨0⟩ (fun _ => false),
      ∃ i, (e, i) ∈ witnessSegment.iterRandom ∧
        witnessSegment.filterContextCheck ⟨0⟩ i = true :=
  sampleRandomStream_bounded_satisfying_distinct witnessSegment 2 ⟨0⟩ (fun _ => false)
    (by decide)

/-- C3: `read_by_random_id` returns exactly `min limit live_point_count`
pairwise distinct external ids of live points — given that the id tracker's
random permutation enumerates exactly the live points, each once. -/
theorem readByRandomId_min_distinct_live
    (s : Segment) (limit : Nat) (live : List PointIdType)
    (hperm : List.Perm (s.iterRandom.map Prod.fst) live) (hnodup : live.Nodup) :
    (s.read_by_random_id limit).length = min limit live.length ∧
    (s.read_by_random_id limit).Nodup ∧
    ∀ e ∈ s.read_by_random_id limit, e ∈ live := by
  simp only [Segment.read_by_random_id]
  refine ⟨?_, ?_, ?_⟩
  · rw [List.length_take, hperm.length_eq]
  · exact (hperm.nodup_iff.mpr hnodup).sublist (List.take_sublist _ _)
  · intro e he
    exact hperm.mem_iff.mp (List.mem_of_mem_take he)

/-- Witness for C3 at a concrete segment and live-point list. -/
theorem readByRandomId_min_distinct_live_witness :
    (witnessSegment.read_by_random_id 2).length
        = min 2 [PointIdType.numId 0, PointIdType.numId 1, PointIdType.numId 2].length ∧
    (witnessSegment.read_by_random_id 2).Nodup ∧
    ∀ e ∈ witnessSegment.read_by_random_id 2,
      e ∈ [PointIdType.numId 0, PointIdType.numId 1, PointIdType.numId 2] :=
  readByRandomId_min_distinct_live witnessSegment 2
    [PointIdType.numId 0, PointIdType.numId 1, PointIdType.numId 2]
    (by decide) (by decide)

/-- C4: with the random draws as explicit inputs,
`filtered_read_by_index_shuffled` coincides with the spec's reference
algorithm: enumerate the index's filtered sequence with per-candidate
cancellation, translate dropping unresolved ids, reservoir-choose up to
`limit`, then shuffle uniformly. -/
theorem sampleIndexShuffled_matches_reference (s : Segment) (limit : Nat)
    (condition : Filter) (stop : Nat → Bool) (drawChoose drawShuffle : Nat → Nat) :
    s.filtered_read_by_index_shuffled limit condition stop drawChoose drawShuffle
      = s.specSampleIndexShuffled limit condition stop drawChoose drawShuffle := by
  simp only [Segment.filtered_read_by_index_shuffled, Segment.specSampleIndexShuffled]
  rw [specReservoir_eq_chooseMultiple]
  congr 2
  simp [List.reduceOption, List.filterMap_map]

/-- C5: a cancellation flag observed set at the very first poll makes both
filtered reads return the empty sequence. -/
theorem cancelledBeforeFirst_returnsEmpty
    (s : Segment) (limit : Nat) (condition : Filter) (stop : Nat → Bool)
    (drawChoose drawShuffle : Nat → Nat) (h : stop 0 = true) :
    s.filtered_read_by_index_shuffled limit condition stop drawChoose drawShuffle = [] ∧
    s.filtered_read_by_random_stream limit condition stop = [] := by
  constructor
  · simp only [Segment.filtered_read_by_index_shuffled]
    rw [checkStop_eq_nil_of_stopped stop h, List.filterMap_nil, chooseMultiple_nil,
      shuffle_nil]
  · simp only [Segment.filtered_read_by_random_stream]
    rw [checkStop_eq_nil_of_stopped stop h]
    simp

/-- Witness for C5 with an initially set flag. -/
theorem cancelledBeforeFirst_returnsEmpty_witness :
    witnessSegment.filtered_read_by_index_shuffled 3 ⟨0⟩ (fun _ => true) (fun _ => 0)
        (fun _ => 0) = [] ∧
    witnessSegment.filtered_read_by_random_stream 3 ⟨0⟩ (fun _ => true) = [] :=
  cancelledBeforeFirst_returnsEmpty witnessSegment 3 ⟨0⟩ (fun _ => true) (fun _ => 0)
    (fun _ => 0) rfl

/-- C6: the three sampling operations are total — they always return a
(possibly empty) list, never an error value; in particular a filter matching
zero points yields the empty sequence for both filtered strategies, and an
empty segment yields empty sequences as well. -/
theorem samplingOperations_total
    (s : Segment) (limit : Nat) (condition : Filter) (stop : Nat → Bool)
    (drawChoose drawShuffle : Nat → Nat) :
    (s.iterFilteredPoints condition (s.estimateCardinality condition) = [] →
       s.filtered_read_by_index_shuffled limit condition stop drawChoose drawShuffle = []) ∧
    ((∀ i, s.filterContextCheck condition i = false) →
       s.filtered_read_by_random_stream limit condition stop = []) ∧
    (s.iterRandom = [] →
       s.filtered_read_by_random_stream limit condition stop = [] ∧
       s.read_by_random_id limit = []) := by
  refine ⟨?_, ?_, ?_⟩
  · intro h
    simp only [Segment.filtered_read_by_index_shuffled, h]
    rw [show checkStop stop ([] : List Nat) = [] from rfl, List.filterMap_nil,
      chooseMultiple_nil, shuffle_nil]
  · intro h
    simp only [Segment.filtered_read_by_random_stream]
    rw [List.filter_eq_nil_iff.mpr (fun p _ => by simp [h p.2])]
    simp
  · intro h
    simp only [Segment.filtered_read_by_random_stream, Segment.read_by_random_id, h]
    constructor
    · rw [show checkStop stop ([] : List (PointIdType × Nat)) = [] from rfl]
      simp
    · simp

/-- Witness for C6 at the empty segment. -/
theorem samplingOperations_total_witness :
    emptySegment.filtered_read_by_index_shuffled 3 ⟨0⟩ (fun _ => false) (fun _ => 0)
        (fun _ => 0) = [] ∧
    emptySegment.filtered_read_by_random_stream 3 ⟨0⟩ (fun _ => false) = [] ∧
    emptySegment.read_by_random_id 3 = [] :=
  ⟨(samplingOperations_total emptySegment 3 ⟨0⟩ (fun _ => false) (fun _ => 0)
      (fun _ => 0)).1 rfl,
   (samplingOperations_total emptySegment 3 ⟨0⟩ (fun _ => false) (fun _ => 0)
      (fun _ => 0)).2.1 (fun _ => rfl),
   ((samplingOperations_total emptySegment 3 ⟨0⟩ (fun _ => false) (fun _ => 0)
      (fun _ => 0)).2.2 rfl).2⟩

/-- C10: `filtered_read_by_random_stream` applies no final shuffle — it
returns exactly the first up-to-`limit` external ids of the
cancellation-truncated random permutation whose internal ids pass the
compiled filter context, in the permutation's relative order. -/
theorem sampleRandomStream_matches_reference (s : Segment) (limit : Nat)
    (condition : Filter) (stop : Nat → Bool) :
    s.filtered_read_by_random_stream limit condition stop
      = s.specSampleRandomStream limit condition stop := by
  simp only [Segment.filtered_read_by_random_stream, Segment.specSampleRandomStream]
  rw [List.map_take]

/-- C7 counterexample: the `Named` variant of `VectorStruct` is not
document-tagged, yet validating it with a document vector nested inside
yields exactly the document-inference error, refuting the claim that no
non-document variant ever produces that error. -/
theorem namedVariant_surfaces_documentError :
    VectorStruct.isDocumentVariant
        (VectorStruct.named [("vec", Vector.document ⟨"some text"⟩)]) = false ∧
    VectorStruct.validate (VectorStruct.named [("vec", Vector.document ⟨"some text"⟩)])
      = .error documentInferenceError :=
  ⟨rfl, rfl⟩

/-- C7 (amended): every document-tagged variant of `VectorStruct`,
`BatchVectorStruct`, `Vector` and `VectorInput` fails with exactly the
not-supported error carrying the message
"Document inference is not implemented, please use vectors instead" on field
"text"; and a non-document variant produces no such error as long as no
document-tagged vector is nested inside it. -/
theorem documentVariants_rejected_uniformly :
    (∀ vs : VectorStruct,
       (vs.isDocumentVariant = true → vs.validate = .error documentInferenceError) ∧
       (vs.isDocumentVariant = false → vs.nestedDocumentFree = true →
          hasDocInferenceError vs.validate = false)) ∧
    (∀ bs : BatchVectorStruct,
       (bs.isDocumentVariant = true → bs.validate = .error documentInferenceError) ∧
       (bs.isDocumentVariant = false → bs.nestedDocumentFree = true →
          hasDocInferenceError bs.validate = false)) ∧
    (∀ v : Vector,
       (v.isDocument = true → v.validate = .error documentInferenceError) ∧
       (v.isDocument = false → hasDocInferenceError v.validate = false)) ∧
    (∀ v : VectorInput,
       (v.isDocumentVariant = true → v.validate = .error documentInferenceError) ∧
       (v.isDocumentVariant = false → hasDocInferenceError v.validate = false)) := by
  refine ⟨?_, ?_, ?_, ?_⟩
  · intro vs
    match vs with
    | .single _ => exact ⟨(fun h => nomatch h), fun _ _ => rfl⟩
    | .multiDense m =>
      exact ⟨(fun h => nomatch h), fun _ _ => multiVector_no_docError m⟩
    | .named m =>
      refine ⟨(fun h => nomatch h), fun _ hfree => ?_⟩
      apply vectors_validateFirst_no_docError
      intro v hv
      have := List.all_eq_true.mp hfree v hv
      simpa using this
    | .document _ => exact ⟨fun _ => rfl, fun h => nomatch h⟩
  · intro bs
    match bs with
    | .single _ => exact ⟨(fun h => nomatch h), fun _ _ => rfl⟩
    | .multiDense ms =>
      refine ⟨(fun h => nomatch h), fun _ _ => ?_⟩
      apply validateFirst_preserves _ rfl
      intro r hr
      rcases List.mem_map.mp hr with ⟨m, _, hm⟩
      exact hm ▸ multiVector_no_docError m
    | .named m =>
      refine ⟨(fun h => nomatch h), fun _ hfree => ?_⟩
      apply vectors_validateFirst_no_docError
      intro v hv
      have := List.all_eq_true.mp hfree v hv
      simpa using this
    | .document _ => exact ⟨fun _ => rfl, fun h => nomatch h⟩
  · intro v
    match v with
    | .dense _ => exact ⟨(fun h => nomatch h), fun _ => rfl⟩
    | .sparse s => exact ⟨(fun h => nomatch h), fun _ => sparseVector_no_docError s⟩
    | .multiDense m => exact ⟨(fun h => nomatch h), fun _ => multiVector_no_docError m⟩
    | .document _ => exact ⟨fun _ => rfl, fun h => nomatch h⟩
  · intro v
    match v with
    | .id _ => exact ⟨(fun h => nomatch h), fun _ => rfl⟩
    | .denseVector _ => exact ⟨(fun h => nomatch h), fun _ => rfl⟩
    | .sparseVector s => exact ⟨(fun h => nomatch h), fun _ => sparseVector_no_docError s⟩
    | .multiDenseVector m =>
      exact ⟨(fun h => nomatch h), fun _ => multiVector_no_docError m⟩
    | .document _ => exact ⟨fun _ => rfl, fun h => nomatch h⟩

/-- Witness for C7 at a concrete document request and a concrete dense
vector. -/
theorem documentVariants_rejected_uniformly_witness :
    VectorStruct.validate (VectorStruct.document ⟨"txt"⟩)
        = .error documentInferenceError ∧
    hasDocInferenceError (VectorInput.validate (VectorInput.denseVector [])) = false :=
  ⟨(documentVariants_rejected_uniformly.1 (VectorStruct.document ⟨"txt"⟩)).1 rfl,
   (documentVariants_rejected_uniformly.2.2.2 (VectorInput.denseVector [])).2 rfl⟩

/-- C8: `RecommendInput::validate` fails with the error keyed to
"positives, negatives" exactly when both the positive and the negative list
are absent or empty; otherwise no error under that key is ever produced. -/
theorem recommendInput_requires_example (r : RecommendInput) :
    (((r.positive.map List.isEmpty).getD true
        && (r.negative.map List.isEmpty).getD true) = true →
       r.validate = .error recommendEmptyError) ∧
    (((r.positive.map List.isEmpty).getD true
        && (r.negative.map List.isEmpty).getD true) = false →
       hasFieldKey r.validate "positives, negatives" = false) := by
  constructor
  · intro h
    simp only [RecommendInput.validate, h, if_true]
  · intro h
    simp only [RecommendInput.validate, h, Bool.false_eq_true, if_false]
    apply validateFirst_preserves (fun x => hasFieldKey x "positives, negatives") rfl
    intro x hx
    rcases List.mem_map.mp hx with ⟨v, _, hv⟩
    exact hv ▸ vectorInput_no_recommend_key v

/-- Witness for C8: an input with no examples fails with the keyed error; an
input with one positive example carries no error under that key. -/
theorem recommendInput_requires_example_witness :
    RecommendInput.validate ⟨none, none⟩ = .error recommendEmptyError ∧
    hasFieldKey (RecommendInput.validate ⟨some [VectorInput.id (.numId 7)], none⟩)
        "positives, negatives" = false :=
  ⟨(recommendInput_requires_example ⟨none, none⟩).1 rfl,
   (recommendInput_requires_example ⟨some [VectorInput.id (.numId 7)], none⟩).2 rfl⟩

/-- C9: nested validation short-circuits per branch — for both
`RecommendInput` and `ContextInput` the result is the error of the first
failing nested item in iteration order, whatever items follow it. -/
theorem nestedValidation_shortCircuits
    (pre post : List VectorInput) (bad : VectorInput) (e : ValidationErrors)
    (preP postP : List ContextPair) (badP : ContextPair)
    (hpre : ∀ x ∈ pre, x.validate = .ok ())
    (hbad : bad.validate = .error e)
    (hpreP : ∀ p ∈ preP, p.positive.validate = .ok () ∧ p.negative.validate = .ok ())
    (hbadP : badP.positive.validate = .error e) :
    RecommendInput.validate ⟨some (pre ++ bad :: post), none⟩ = .error e ∧
    ContextInput.validate ⟨some (preP ++ badP :: postP)⟩ = .error e := by
  constructor
  · have hne : (pre ++ bad :: post).isEmpty = false := by
      cases pre <;> rfl
    have hval : RecommendInput.validate ⟨some (pre ++ bad :: post), none⟩
        = validateFirst ((pre ++ bad :: post).map VectorInput.validate) := by
      simp [RecommendInput.validate, RecommendInput.iter, hne]
    rw [hval, List.map_append, List.map_cons, hbad]
    exact validateFirst_ok_append e _ _ (fun r hr => by
      rcases List.mem_map.mp hr with ⟨v, hv, hve⟩
      exact hve ▸ hpre v hv)
  · simp only [ContextInput.validate, Option.getD_some, List.flatMap_append,
      List.flatMap_cons, ContextPair.iter, List.map_append, List.map_cons, hbadP]
    exact validateFirst_ok_append e _ _ (fun r hr => by
      rcases List.mem_map.mp hr with ⟨v, hv, hve⟩
      rcases List.mem_flatMap.mp hv with ⟨p, hp, hvp⟩
      rcases hpreP p hp with ⟨h1, h2⟩
      rcases List.mem_cons.mp hvp with h3 | h3
      · exact hve ▸ h3 ▸ h1
      · rcases List.mem_cons.mp h3 with h4 | h4
        · exact hve ▸ h4 ▸ h2
        · cases h4)

/-- Witness for C9: a failing document item placed after one valid item
determines the error; a later item (itself invalid) is not reflected. -/
theorem nestedValidation_shortCircuits_witness :
    RecommendInput.validate
        ⟨some [VectorInput.id (.numId 1), VectorInput.document ⟨"d"⟩,
               VectorInput.sparseVector ⟨[1], []⟩], none⟩
      = .error documentInferenceError ∧
    ContextInput.validate
        ⟨some [⟨VectorInput.document ⟨"d"⟩, VectorInput.sparseVector ⟨[1], []⟩⟩]⟩
      = .error documentInferenceError :=
  nestedValidation_shortCircuits
    [VectorInput.id (.numId 1)] [VectorInput.sparseVector ⟨[1], []⟩]
    (VectorInput.document ⟨"d"⟩) documentInferenceError
    [] [] ⟨VectorInput.document ⟨"d"⟩, VectorInput.sparseVector ⟨[1], []⟩⟩
    (by intro x hx; rw [List.mem_singleton.mp hx]; rfl)
    rfl
    (by intro p hp; cases hp)
    rfl

end Qdrant
